import Mathlib

/-!
Verification development for the start-workspace action: a shallow embedding of
the orchestration core (identity resolution, parameter parsing, status-comment
updates, workspace provisioning) together with theorems about its behaviour.

String operations of the JavaScript source (trim, split on newline, template
interpolation) are embedded as structural functions on character lists so that
every definition evaluates inside the kernel.
-/

/-- Whitespace recognised by the JavaScript String.prototype.trim (the ASCII
part, which is all the repository ever feeds it). -/
def jsIsWhitespace (c : Char) : Bool :=
  c == ' ' || c == '\t' || c == '\n' || c == '\r' || c == '\x0b' || c == '\x0c'

/-- Embedding of JavaScript String.prototype.trim: drop whitespace from both
ends of the string. -/
def jsTrim (s : String) : String :=
  ⟨((s.data.dropWhile jsIsWhitespace).reverse.dropWhile jsIsWhitespace).reverse⟩

/-- Split a character list at every newline; the separators are consumed.
Splitting the empty list yields one empty line, matching JavaScript split. -/
def splitLines : List Char → List (List Char)
  | [] => [[]]
  | c :: cs =>
    if c = '\n' then [] :: splitLines cs
    else
      match splitLines cs with
      | [] => [[c]]
      | l :: ls => (c :: l) :: ls

/-- Embedding of the JavaScript split("\n") used by the legacy table parser. -/
def jsSplitNl (s : String) : List String :=
  (splitLines s.data).map (fun l => ⟨l⟩)

/-- JavaScript truthiness of an optional string: undefined and the empty
string are falsy, every other string is truthy. -/
def truthy : Option String → Bool
  | none => false
  | some s => !(s == "")

/-- JavaScript template-literal interpolation of an optional string:
interpolating undefined yields the text "undefined". -/
def jsInterp : Option String → String
  | none => "undefined"
  | some s => s

/-- Error taxonomy of the action. userFacing embeds the UserFacingError class;
assertionError embeds a failed node assert call; configError embeds the plain
Error thrown by the input validation at the top of execute; paramFormat stands
for a parameter-decoding failure of the external YAML layer. -/
inductive ActionError where
  | configError (msg : String)
  | userFacing (msg : String)
  | assertionError (msg : String)
  | paramFormat (msg : String)
deriving DecidableEq

instance : DecidableEq (Except ActionError String) := fun a b =>
  match a, b with
  | .ok x, .ok y =>
    if h : x = y then isTrue (by rw [h]) else isFalse (fun hc => by cases hc; exact h rfl)
  | .ok _, .error _ => isFalse (fun hc => by cases hc)
  | .error _, .ok _ => isFalse (fun hc => by cases hc)
  | .error e, .error f =>
    if h : e = f then isTrue (by rw [h]) else isFalse (fun hc => by cases hc; exact h rfl)

/-- The immutable configuration of one action run, mirroring the ActionInput
type of the source (the two optional usernames, the Coder deployment data, the
status-comment locator and the template and parameter inputs). -/
structure ActionInput where
  githubUsername : Option String
  coderUsername : Option String
  coderUrl : String
  coderToken : String
  workspaceName : String
  githubStatusCommentId : Nat
  githubRepoOwner : String
  githubRepoName : String
  githubToken : String
  githubWorkflowRunUrl : String
  templateName : String
  workspaceParameters : String
deriving DecidableEq

/-- Direct-API identity resolution, embedding coderUsernameByGitHubId: the
users list is the response of the Coder user search by GitHub id.  The first
component is the list of warnings logged (the method never warns), the second
the returned username or the thrown error. -/
def coderUsernameByGitHubId (input : ActionInput) (users : List String) :
    List String × Except ActionError String :=
  if truthy input.githubUsername = false then
    ([], .error (.assertionError "GitHub username is required"))
  else
    let gh := jsInterp input.githubUsername
    let externalAuthPage := input.coderUrl ++ "/settings/external-auth"
    if users.length = 0 then
      ([], .error (.userFacing ("No matching Coder user found for GitHub user @" ++ gh ++
        ". Please connect your GitHub account with Coder: " ++ externalAuthPage)))
    else if 1 < users.length then
      ([], .error (.userFacing ("Multiple Coder users found for GitHub user " ++ gh ++ ": " ++
        String.intercalate ", " (users.take 3) ++
        (if 3 < users.length then ", and others" else "") ++
        ". Please connect other users to other GitHub accounts and try again.")))
    else
      let username := users.headD ""
      if username == "" then
        ([], .error (.assertionError "Coder username not found in output"))
      else
        ([], .ok username)

/-- Legacy CLI identity resolution, embedding parseCoderUsersListOutput: the
output of the coder users list command is trimmed, split on newlines, and the
first line is treated as the header.  The first component is the list of
warnings logged, the second the returned username or the thrown error. -/
def parseCoderUsersListOutput (githubUsername : Option String) (output : String) :
    List String × Except ActionError String :=
  let lines := jsSplitNl (jsTrim output)
  if lines.length < 2 then
    if truthy githubUsername = false then
      ([], .error (.assertionError "GitHub username is required"))
    else
      ([], .error (.userFacing ("No Coder username mapping found for GitHub user @" ++
        jsInterp githubUsername)))
  else
    let warns :=
      if 2 < lines.length then
        ["Multiple Coder usernames found for GitHub user " ++ jsInterp githubUsername ++ ": " ++
          String.intercalate ", " ((lines.drop 1).map jsTrim) ++ ". Using the first one."]
      else []
    let username := jsTrim ((lines[1]?).getD "")
    if username == "" then
      (warns, .error (.assertionError "Coder username not found in output"))
    else
      (warns, .ok username)

/-- The arguments recorded for the workspace-creation call, mirroring the
argument object of coderStartWorkspace. -/
structure StartArgs where
  coderUsername : String
  templateName : String
  workspaceName : String
  parameters : List (String × String)
deriving DecidableEq

/-- The externally observable trace of one execute run: the successive bodies
of the status comment (head is the initial body, later entries are the updates
in order), whether the workspace-creation call was made and with which
arguments, the log and warning lines, and how many external identity lookups
were performed. -/
structure ExecState where
  comments : List String
  workspaceStarted : Bool
  startArgs : Option StartArgs
  logs : List String
  warns : List String
  githubUserIdLookups : Nat
  coderUserQueries : Nat
deriving DecidableEq

/-- The external collaborators of execute: the GitHub user-id lookup, the Coder
user search by GitHub id, the initial body of the status comment, and the
parameter decoding performed by the external YAML library together with the
WorkspaceParametersSchema check (cf parseParametersModel below). -/
structure ExecuteEnv where
  getUserIdFromUsername : String → Nat
  getCoderUsersByGitHubId : Nat → List String
  initialComment : String
  parseParameters : String → Except ActionError (List (String × String))

/-- Result of one execute run: the recorded trace and the error thrown, if
any. -/
structure ExecResult where
  state : ExecState
  error : Option ActionError
deriving DecidableEq

/-- The trace before any step of execute has run: only the initial comment
body is on record. -/
def initState (env : ExecuteEnv) : ExecState :=
  { comments := [env.initialComment]
    workspaceStarted := false
    startArgs := none
    logs := []
    warns := []
    githubUserIdLookups := 0
    coderUserQueries := 0 }

/-- Embedding of execute: validate the username configuration, parse the
parameters, resolve the Coder username (via GitHub when no direct Coder
username is set), post the pre-update status comment, invoke the
workspace-creation call (recorded at its collaborator boundary, as in the
tests of the source), and post the terminal status comment.  Comment reads
return the last recorded body; comment updates append a new body. -/
def execute (input : ActionInput) (env : ExecuteEnv) : ExecResult :=
  let st0 := initState env
  if truthy input.githubUsername = false ∧ truthy input.coderUsername = false then
    ⟨st0, some (.configError "GitHub username or Coder username is required")⟩
  else if truthy input.githubUsername = true ∧ truthy input.coderUsername = true then
    ⟨st0, some (.configError "Only one of GitHub username or Coder username may be set")⟩
  else
    match env.parseParameters input.workspaceParameters with
    | .error e => ⟨st0, some e⟩
    | .ok parameters =>
      let resolved : ExecState × Except ActionError String :=
        if (input.coderUsername.getD "") == "" then
          if truthy input.githubUsername = false then
            (st0, .error (.assertionError "GitHub username is required"))
          else
            let g := jsInterp input.githubUsername
            let st1 := { st0 with
              logs := st0.logs ++ ["Getting Coder username for GitHub user " ++ g]
              githubUserIdLookups := st0.githubUserIdLookups + 1 }
            let userId := env.getUserIdFromUsername g
            let users := env.getCoderUsersByGitHubId userId
            let st2 := { st1 with coderUserQueries := st1.coderUserQueries + 1 }
            match coderUsernameByGitHubId input users with
            | (w, .error e) => ({ st2 with warns := st2.warns ++ w }, .error e)
            | (w, .ok u) =>
              ({ st2 with
                warns := st2.warns ++ w
                logs := st2.logs ++ ["Coder username for GitHub user " ++ g ++ " is " ++ u] },
               .ok u)
        else
          ({ st0 with logs := st0.logs ++ ["Using Coder username " ++ jsInterp input.coderUsername] },
           .ok (input.coderUsername.getD ""))
      match resolved with
      | (st, .error e) => ⟨st, some e⟩
      | (st, .ok coderUsername) =>
        let workspaceUrl := input.coderUrl ++ "/" ++ coderUsername ++ "/" ++ input.workspaceName
        let st := { st with logs := st.logs ++ ["Workspace URL: " ++ workspaceUrl] }
        let commentBody := st.comments.getLastD ""
        if commentBody == "" then
          ⟨st, some (.assertionError "Issue comment body is required")⟩
        else
          let newBody := commentBody ++ "\nWorkspace will be available here: " ++ workspaceUrl
          let st := { st with comments := st.comments ++ [newBody] }
          let st := { st with
            workspaceStarted := true
            startArgs := some { coderUsername := coderUsername
                                templateName := input.templateName
                                workspaceName := input.workspaceName
                                parameters := parameters } }
          let finalComment := "âœ… Workspace started: " ++ workspaceUrl ++
            "\nView [Github Actions logs](" ++ input.githubWorkflowRunUrl ++ ")."
          let st := { st with comments := st.comments ++ [finalComment] }
          ⟨st, none⟩

/-- Does the haystack start with the needle? -/
def startsWithList : List Char → List Char → Bool
  | [], _ => true
  | _ :: _, [] => false
  | a :: as, b :: bs => a == b && startsWithList as bs

/-- Does the needle occur contiguously inside the haystack? -/
def containsSub (needle : List Char) : List Char → Bool
  | [] => startsWithList needle []
  | c :: cs => startsWithList needle (c :: cs) || containsSub needle cs

/-- Substring test on strings: does hay contain needle? -/
def strContains (hay needle : String) : Bool :=
  containsSub needle.data hay.data

/-- Field validator of the two optional username inputs of ActionInputSchema:
the field may be absent, but a present value must have length at least one
(z.string().min(1).optional()). -/
def zStringMin1Optional : Option String → Bool
  | none => true
  | some s => decide (1 ≤ s.length)

/-- A flat model of the files on disk: an association list from path to
contents, newest write first. -/
abbrev FileSystem : Type := List (String × String)

/-- Record a file write, as the fs writeFile call does. -/
def fsWrite (path contents : String) (fs : FileSystem) : FileSystem :=
  (path, contents) :: fs

/-- Remove every file at the given path, as the fs unlink call does. -/
def fsRemove (path : String) (fs : FileSystem) : FileSystem :=
  fs.filter (fun e => !(e.1 == path))

/-- Does a file exist at the given path? -/
def fsExists (path : String) (fs : FileSystem) : Bool :=
  fs.any (fun e => e.1 == path)

/-- The temporary parameter-file path built by createParametersFile, with the
random draw made explicit. -/
def tmpFilePath (n : Nat) : String :=
  "/tmp/coder-parameters-" ++ toString n ++ ".yml"

/-- Embedding of createParametersFile: write the parameter text to the
temporary path and return that path.  The number n stands for the random draw
Math.round(Math.random() * 1000000). -/
def createParametersFile (parameters : String) (n : Nat) (fs : FileSystem) :
    FileSystem × String :=
  let path := tmpFilePath n
  (fsWrite path parameters fs, path)

/-- Modelled from the spec: the CLI-transport provisioning wrapper that calls
createParametersFile, invokes the coder create command with the file path and
removes the temporary file afterwards is not among the repository sources
(only createParametersFile and its test are); section 4.3(b) of the spec
requires the temporary structured-text file to be removed after the call
regardless of success or failure, with guaranteed cleanup on all exit paths.
The callSucceeds flag is the outcome of the provisioning call itself. -/
def provisionWorkspaceCLI (parameters : String) (n : Nat) (callSucceeds : Bool)
    (fs : FileSystem) : FileSystem × Bool :=
  let created := createParametersFile parameters n fs
  let fsAfterCall := created.1
  let fsCleaned := fsRemove created.2 fsAfterCall
  (fsCleaned, callSucceeds)

/-- Escape one character for a double-quoted structured-text scalar. -/
def escChar (c : Char) : List Char :=
  if c = '\"' then ['\\', '\"']
  else if c = '\\' then ['\\', '\\']
  else if c = '\n' then ['\\', 'n']
  else [c]

/-- Escape a whole character list. -/
def escList : List Char → List Char
  | [] => []
  | c :: cs => escChar c ++ escList cs

/-- Unescape one escaped character. -/
def unescChar (c : Char) : Option Char :=
  if c = '\"' then some '\"'
  else if c = '\\' then some '\\'
  else if c = 'n' then some '\n'
  else none

/-- One encoded line of the parameter blob: a double-quoted key, a colon and
a space, and a double-quoted value. -/
def encodePairLine (p : String × String) : List Char :=
  '\"' :: (escList p.1.data ++ ('\"' :: ':' :: ' ' :: '\"' :: (escList p.2.data ++ ['\"'])))

/-- Join encoded lines with single newlines. -/
def joinLines : List (List Char) → List Char
  | [] => []
  | [l] => l
  | l :: l₂ :: ls => l ++ '\n' :: joinLines (l₂ :: ls)

/-- Modelled from the spec: encoding a flat string mapping as structured text
(section 4.2: key-value pairs, one per line, YAML-compatible).  Every key and
value is emitted as a double-quoted scalar, so numeric- or boolean-looking
values stay quoted strings; the empty mapping is the empty flow mapping. -/
def encodeParameters (ps : List (String × String)) : String :=
  match ps with
  | [] => "\x7b\x7d"
  | _ :: _ => ⟨joinLines (ps.map encodePairLine)⟩

/-- Scan the body of a double-quoted scalar: the input starts right after the
opening quote; return the unescaped content and the rest after the closing
quote. -/
def scanQuoted : List Char → Option (List Char × List Char)
  | [] => none
  | c :: cs =>
    if c = '\"' then some ([], cs)
    else if c = '\\' then
      match cs with
      | [] => none
      | d :: ds =>
        match unescChar d, scanQuoted ds with
        | some u, some (s, r) => some (u :: s, r)
        | _, _ => none
    else if c = '\n' then none
    else
      match scanQuoted cs with
      | some (s, r) => some (c :: s, r)
      | none => none

/-- Decode one line of the parameter blob into a key-value pair. -/
def decodeLine (l : List Char) : Option (String × String) :=
  match l with
  | '\"' :: rest =>
    match scanQuoted rest with
    | none => none
    | some (k, r1) =>
      match r1 with
      | ':' :: ' ' :: '\"' :: r2 =>
        match scanQuoted r2 with
        | some (v, []) => some (⟨k⟩, ⟨v⟩)
        | _ => none
      | _ => none
  | _ => none

/-- Decode every line, failing when any line fails. -/
def decodeLines : List (List Char) → Option (List (String × String))
  | [] => some []
  | l :: ls =>
    match decodeLine l, decodeLines ls with
    | some p, some ps => some (p :: ps)
    | _, _ => none

/-- Modelled from the spec: the decoding performed by parseParameters, whose
structured-text layer is the external yaml library (not part of the
repository sources) followed by the WorkspaceParametersSchema check that every
value is a plain string.  Decodes the empty flow mapping or one quoted
key-value pair per line; nothing is coerced, every decoded value is a
string. -/
def parseParametersModel (s : String) : Option (List (String × String)) :=
  if s = "\x7b\x7d" then some []
  else decodeLines (splitLines s.data)

/-! Helper lemmas about substring containment and truthiness. -/

theorem startsWithList_self_append (n r : List Char) :
    startsWithList n (n ++ r) = true := by
  induction n with
  | nil => rfl
  | cons a as ih => simp [startsWithList, ih]

theorem containsSub_self_append (n r : List Char) : containsSub n (n ++ r) = true := by
  have hs := startsWithList_self_append n r
  cases hnr : n ++ r with
  | nil =>
    have hn : n = [] := (List.append_eq_nil.mp hnr).1
    subst hn
    rfl
  | cons c cs =>
    rw [hnr] at hs
    simp [containsSub, hs]

theorem containsSub_append_left (p n r : List Char) :
    containsSub n (p ++ (n ++ r)) = true := by
  induction p with
  | nil => simpa using containsSub_self_append n r
  | cons c cs ih =>
    simp [containsSub, ih]

theorem strContains_mid (a n b : String) : strContains (a ++ n ++ b) n = true := by
  unfold strContains
  rw [String.data_append, String.data_append, List.append_assoc]
  exact containsSub_append_left a.data n.data b.data

theorem strContains_right (a n : String) : strContains (a ++ n) n = true := by
  unfold strContains
  rw [String.data_append]
  have := containsSub_append_left a.data n.data []
  simpa using this

theorem getD_empty_of_truthy_false (o : Option String) (h : truthy o = false) :
    o.getD "" = "" := by
  cases o with
  | none => rfl
  | some s =>
    simp only [truthy, Bool.not_eq_false'] at h
    simpa [Option.getD] using eq_of_beq h

theorem str_append_assoc (a b c : String) : a ++ b ++ c = a ++ (b ++ c) := by
  apply String.ext
  simp [String.data_append, List.append_assoc]

/-! Concrete scenario inputs used by the end-to-end theorems and witnesses. -/

/-- The happy-path configuration of the execute tests: source username set,
no Coder username override. -/
def happyInput : ActionInput :=
  { githubUsername := some "github-user"
    coderUsername := none
    coderUrl := "https://example.com"
    coderToken := "coder-token"
    workspaceName := "workspace-name"
    githubStatusCommentId := 123
    githubRepoOwner := "github-repo-owner"
    githubRepoName := "github-repo-name"
    githubToken := "github-token"
    githubWorkflowRunUrl := "https://github.com/workflow-run"
    templateName := "ubuntu"
    workspaceParameters := "key: value\nkey2: value2\nkey3: value3" }

/-- Collaborators of the happy-path scenario: user id 123, exactly one
matching Coder user hugo, initial comment body Initial comment. -/
def happyEnv : ExecuteEnv :=
  { getUserIdFromUsername := fun _ => 123
    getCoderUsersByGitHubId := fun _ => ["hugo"]
    initialComment := "Initial comment"
    parseParameters := fun _ => .ok [("key", "value"), ("key2", "value2"), ("key3", "value3")] }

/-- Collaborators of the zero-match scenario: no Coder user matches. -/
def zeroEnv : ExecuteEnv :=
  { getUserIdFromUsername := fun _ => 123
    getCoderUsersByGitHubId := fun _ => []
    initialComment := "Initial comment"
    parseParameters := fun _ => .ok [] }

/-! Claim theorems. -/

/-- C1.  On the happy-path run (source username set, exactly one matching
Coder user hugo, initial status comment Initial comment) workspace creation is
invoked with coderUsername hugo, the configured template name and the
configured workspace name — but the status comments the code writes use the
wording "Workspace will be available here:" and "Workspace started:", not the
"workspace will be available at"/"Workspace is available at" lines the claim
(and the repository test suite) require: no recorded comment ever contains
the claimed phrase. -/
theorem execute_happy_path_comment_wording_diverges :
    (execute happyInput happyEnv).error = none ∧
    (execute happyInput happyEnv).state.workspaceStarted = true ∧
    (execute happyInput happyEnv).state.startArgs = some
      { coderUsername := "hugo"
        templateName := "ubuntu"
        workspaceName := "workspace-name"
        parameters := [("key", "value"), ("key2", "value2"), ("key3", "value3")] } ∧
    (execute happyInput happyEnv).state.comments =
      ["Initial comment",
       "Initial comment\nWorkspace will be available here: https://example.com/hugo/workspace-name",
       "âœ… Workspace started: https://example.com/hugo/workspace-name\nView [Github Actions logs](https://github.com/workflow-run)."] ∧
    (∀ c ∈ (execute happyInput happyEnv).state.comments,
      strContains c "Workspace will be available at" = false) ∧
    (∀ c ∈ (execute happyInput happyEnv).state.comments,
      strContains c "Workspace is available at" = false) := by
  refine ⟨by decide, by decide, by decide, by decide, by decide, by decide⟩

/-- C4 counterexample.  A legacy users-list table that contains a blank data
line (in the second data position) does not fail at all: parsing returns the
first row and merely warns, refuting the claim that any table containing a
blank data line fails with an internal assertion error. -/
theorem parseCoderUsersListOutput_blank_middle_line_succeeds :
    "" ∈ ((jsSplitNl (jsTrim "USERNAME\nhugo\n\nalice")).drop 1).map jsTrim ∧
    parseCoderUsersListOutput (some "github-user") "USERNAME\nhugo\n\nalice" =
      (["Multiple Coder usernames found for GitHub user github-user: hugo, , alice. Using the first one."],
       .ok "hugo") := by
  exact ⟨by decide, by decide⟩

/-- C5 counterexample.  With exactly one match carrying surrounding
whitespace, the direct-API strategy returns the username verbatim, not
trimmed: the result differs from its own trimmed form, refuting the claim
that both strategies trim. -/
theorem coderUsernameByGitHubId_single_match_not_trimmed :
    coderUsernameByGitHubId happyInput [" hugo "] = ([], .ok " hugo ") ∧
    jsTrim " hugo " = "hugo" ∧ (" hugo " : String) ≠ "hugo" := by
  exact ⟨by decide, by decide, by decide⟩

/-- C2.  Direct-API strategy with zero matching users: execute throws a
UserFacingError whose message carries the literal GitHub username and the
external-auth linking URL, no workspace-creation call happens, and the status
comment is never updated — its only recorded state is the unmodified initial
comment. -/
theorem execute_zero_matches_fails_user_facing
    (input : ActionInput) (env : ExecuteEnv) (g : String) (ps : List (String × String))
    (hgh : input.githubUsername = some g) (hg : g ≠ "")
    (hcu : input.coderUsername = none)
    (hp : env.parseParameters input.workspaceParameters = .ok ps)
    (hu : env.getCoderUsersByGitHubId (env.getUserIdFromUsername g) = []) :
    (execute input env).error = some (.userFacing
      ("No matching Coder user found for GitHub user @" ++ g ++
        ". Please connect your GitHub account with Coder: " ++
        (input.coderUrl ++ "/settings/external-auth"))) ∧
    strContains
      ("No matching Coder user found for GitHub user @" ++ g ++
        (". Please connect your GitHub account with Coder: " ++
          (input.coderUrl ++ "/settings/external-auth"))) g = true ∧
    strContains
      ("No matching Coder user found for GitHub user @" ++ g ++
        ". Please connect your GitHub account with Coder: " ++
        (input.coderUrl ++ "/settings/external-auth"))
      (input.coderUrl ++ "/settings/external-auth") = true ∧
    (execute input env).state.workspaceStarted = false ∧
    (execute input env).state.startArgs = none ∧
    (execute input env).state.comments = [env.initialComment] := by
  have hbe : (g == "") = false := by
    simpa using hg
  refine ⟨?_, strContains_mid _ _ _, strContains_right _ _, ?_, ?_, ?_⟩ <;>
    simp [execute, coderUsernameByGitHubId, initState, truthy, jsInterp,
      hgh, hbe, hcu, hp, hu]

/-- C2 witness: the zero-match scenario at the concrete test configuration. -/
theorem execute_zero_matches_fails_user_facing_witness :
    (execute happyInput zeroEnv).error = some (.userFacing
      ("No matching Coder user found for GitHub user @" ++ "github-user" ++
        ". Please connect your GitHub account with Coder: " ++
        (happyInput.coderUrl ++ "/settings/external-auth"))) ∧
    strContains
      ("No matching Coder user found for GitHub user @" ++ "github-user" ++
        (". Please connect your GitHub account with Coder: " ++
          (happyInput.coderUrl ++ "/settings/external-auth"))) "github-user" = true ∧
    strContains
      ("No matching Coder user found for GitHub user @" ++ "github-user" ++
        ". Please connect your GitHub account with Coder: " ++
        (happyInput.coderUrl ++ "/settings/external-auth"))
      (happyInput.coderUrl ++ "/settings/external-auth") = true ∧
    (execute happyInput zeroEnv).state.workspaceStarted = false ∧
    (execute happyInput zeroEnv).state.startArgs = none ∧
    (execute happyInput zeroEnv).state.comments = [zeroEnv.initialComment] :=
  execute_zero_matches_fails_user_facing happyInput zeroEnv "github-user" []
    rfl (by decide) rfl rfl rfl

/-- C3.  With more than one match the two strategies diverge: the direct-API
resolver throws a user-facing error listing the first three usernames at most,
with the ", and others" marker appended exactly when more than three matches
exist, while the legacy CLI parser does not fail — it logs exactly one warning
listing every data-row username in order and returns the first data row
trimmed. -/
theorem resolution_ambiguity_policies_diverge :
    (∀ (input : ActionInput) (users : List String) (g : String),
      input.githubUsername = some g → g ≠ "" → 1 < users.length →
      coderUsernameByGitHubId input users =
        ([], .error (.userFacing
          ("Multiple Coder users found for GitHub user " ++ g ++ ": " ++
            String.intercalate ", " (users.take 3) ++
            (if 3 < users.length then ", and others" else "") ++
            ". Please connect other users to other GitHub accounts and try again.")))) ∧
    (∀ (g : Option String) (output : String),
      2 < (jsSplitNl (jsTrim output)).length →
      jsTrim (((jsSplitNl (jsTrim output))[1]?).getD "") ≠ "" →
      parseCoderUsersListOutput g output =
        (["Multiple Coder usernames found for GitHub user " ++ jsInterp g ++ ": " ++
          String.intercalate ", " (((jsSplitNl (jsTrim output)).drop 1).map jsTrim) ++
          ". Using the first one."],
         .ok (jsTrim (((jsSplitNl (jsTrim output))[1]?).getD "")))) := by
  constructor
  · intro input users g hgh hg h1
    have hbe : (g == "") = false := by simpa using hg
    have h0 : ¬ users.length = 0 := by omega
    simp [coderUsernameByGitHubId, truthy, jsInterp, hgh, hbe, h0, h1]
  · intro g output h2 hne
    have hlt : ¬ (jsSplitNl (jsTrim output)).length < 2 := by omega
    have hbe : (jsTrim (((jsSplitNl (jsTrim output))[1]?).getD "") == "") = false := by
      simpa using hne
    simp [parseCoderUsersListOutput, hlt, h2, hbe]

/-- C3 witness: four API matches give the three-name error with the marker;
a three-line legacy table warns once and picks the first row. -/
theorem resolution_ambiguity_policies_diverge_witness :
    coderUsernameByGitHubId happyInput ["hugo", "alice", "bob", "charlie"] =
      ([], .error (.userFacing "Multiple Coder users found for GitHub user github-user: hugo, alice, bob, and others. Please connect other users to other GitHub accounts and try again.")) ∧
    parseCoderUsersListOutput (some "github-user") "USERNAME\nhugo\nalice" =
      (["Multiple Coder usernames found for GitHub user github-user: hugo, alice. Using the first one."],
       .ok "hugo") := by
  constructor
  · exact (resolution_ambiguity_policies_diverge.1 happyInput ["hugo", "alice", "bob", "charlie"]
      "github-user" rfl (by decide) (by decide)).trans (by decide)
  · exact (resolution_ambiguity_policies_diverge.2 (some "github-user") "USERNAME\nhugo\nalice"
      (by decide) (by decide)).trans (by decide)

/-- C4 (amended).  Legacy-table edge cases: a header-only table fails with the
no-mapping UserFacingError carrying the literal GitHub username and no
external-auth linking URL; a table whose FIRST data line is blank fails with
the internal assertion error, which is not a UserFacingError; blank lines in
later data positions do not fail (see the counterexample theorem). -/
theorem parseCoderUsersListOutput_degenerate_tables :
    (∀ (g : String) (output : String), g ≠ "" →
      (jsSplitNl (jsTrim output)).length < 2 →
      parseCoderUsersListOutput (some g) output =
        ([], .error (.userFacing ("No Coder username mapping found for GitHub user @" ++ g))) ∧
      strContains ("No Coder username mapping found for GitHub user @" ++ g) g = true) ∧
    strContains "No Coder username mapping found for GitHub user @github-user"
      "settings/external-auth" = false ∧
    (∀ (g : Option String) (output : String),
      2 ≤ (jsSplitNl (jsTrim output)).length →
      jsTrim (((jsSplitNl (jsTrim output))[1]?).getD "") = "" →
      (parseCoderUsersListOutput g output).2 =
        .error (.assertionError "Coder username not found in output")) ∧
    (∀ m : String,
      (Except.error (ActionError.assertionError "Coder username not found in output") :
        Except ActionError String) ≠ .error (.userFacing m)) := by
  refine ⟨?_, by decide, ?_, ?_⟩
  · intro g output hg hlt
    have hbe : (g == "") = false := by simpa using hg
    exact ⟨by simp [parseCoderUsersListOutput, truthy, jsInterp, hlt, hbe],
      strContains_right _ _⟩
  · intro g output hge hblank
    have hlt : ¬ (jsSplitNl (jsTrim output)).length < 2 := by omega
    simp [parseCoderUsersListOutput, hlt, hblank]
  · intro m hc
    simp at hc

/-- C4 witness: the header-only table and the blank-first-data-line table of
the test suite. -/
theorem parseCoderUsersListOutput_degenerate_tables_witness :
    parseCoderUsersListOutput (some "github-user") "USERNAME" =
      ([], .error (.userFacing "No Coder username mapping found for GitHub user @github-user")) ∧
    (parseCoderUsersListOutput (some "github-user") "USERNAME\n    \nhugo").2 =
      .error (.assertionError "Coder username not found in output") := by
  constructor
  · exact ((parseCoderUsersListOutput_degenerate_tables.1 "github-user" "USERNAME"
      (by decide) (by decide)).1).trans (by decide)
  · exact parseCoderUsersListOutput_degenerate_tables.2.2.1 (some "github-user")
      "USERNAME\n    \nhugo" (by decide) (by decide)

/-- C5 (amended).  Exactly one match: the direct-API resolver returns the
single username verbatim (unmodified, for any nonempty username) and logs no
warnings; the legacy CLI parser returns the single data row with surrounding
whitespace trimmed and logs no warnings. -/
theorem single_match_resolution :
    (∀ (input : ActionInput) (g u : String),
      input.githubUsername = some g → g ≠ "" → u ≠ "" →
      coderUsernameByGitHubId input [u] = ([], .ok u)) ∧
    (∀ (g : Option String) (output : String) (hdr row : String),
      jsSplitNl (jsTrim output) = [hdr, row] → jsTrim row ≠ "" →
      parseCoderUsersListOutput g output = ([], .ok (jsTrim row))) := by
  constructor
  · intro input g u hgh hg hu
    have hbe : (g == "") = false := by simpa using hg
    have hbu : (u == "") = false := by simpa using hu
    simp [coderUsernameByGitHubId, truthy, hgh, hbe, hbu]
  · intro g output hdr row hl hr
    have hbr : (jsTrim row == "") = false := by simpa using hr
    simp [parseCoderUsersListOutput, hl, hbr]

/-- C5 witness: one API match hugo; the two-line legacy table of the test
suite. -/
theorem single_match_resolution_witness :
    coderUsernameByGitHubId happyInput ["hugo"] = ([], .ok "hugo") ∧
    parseCoderUsersListOutput (some "github-user") "USERNAME\nhugo" = ([], .ok "hugo") := by
  constructor
  · exact single_match_resolution.1 happyInput "github-user" "hugo" rfl (by decide) (by decide)
  · exact (single_match_resolution.2 (some "github-user") "USERNAME\nhugo" "USERNAME" "hugo"
      (by decide) (by decide)).trans (by decide)

/-- C7.  When neither username is set, or both are, execute throws the
corresponding configuration error (a plain Error, not a UserFacingError) with
the trace still in its initial state: no user lookup, no comment read or
update, and no workspace creation has happened. -/
theorem execute_validation_rejects_bad_username_config
    (input : ActionInput) (env : ExecuteEnv) :
    (truthy input.githubUsername = false ∧ truthy input.coderUsername = false →
      execute input env =
        ⟨initState env, some (.configError "GitHub username or Coder username is required")⟩) ∧
    (truthy input.githubUsername = true ∧ truthy input.coderUsername = true →
      execute input env =
        ⟨initState env, some (.configError "Only one of GitHub username or Coder username may be set")⟩) ∧
    (∀ m₁ m₂ : String, ActionError.configError m₁ ≠ .userFacing m₂) := by
  refine ⟨?_, ?_, ?_⟩
  · rintro ⟨h1, h2⟩
    simp [execute, h1, h2]
  · rintro ⟨h1, h2⟩
    simp [execute, h1, h2]
  · intro m₁ m₂ hc
    simp at hc

/-- C7 witness: both degenerate configurations at the default collaborators. -/
theorem execute_validation_rejects_bad_username_config_witness :
    execute { happyInput with githubUsername := none } zeroEnv =
      ⟨initState zeroEnv, some (.configError "GitHub username or Coder username is required")⟩ ∧
    execute { happyInput with coderUsername := some "coder-user" } zeroEnv =
      ⟨initState zeroEnv, some (.configError "Only one of GitHub username or Coder username may be set")⟩ :=
  ⟨(execute_validation_rejects_bad_username_config
      { happyInput with githubUsername := none } zeroEnv).1 (by decide),
   (execute_validation_rejects_bad_username_config
      { happyInput with coderUsername := some "coder-user" } zeroEnv).2.1 (by decide)⟩

/-- C9.  An empty-string Coder-username override behaves exactly as an absent
one at the execute interface: the run is identical to the run with the
override removed, the mutual-exclusivity validation passes and GitHub-based
resolution runs (one GitHub user-id lookup, one Coder user query).  At the
input boundary the schema field validator rejects the empty string, so the
edge is reachable only by direct construction. -/
theorem execute_empty_coder_username_behaves_as_absent
    (input : ActionInput) (env : ExecuteEnv) (g : String)
    (hgh : input.githubUsername = some g) (hg : g ≠ "")
    (hcu : input.coderUsername = some "") :
    execute input env = execute { input with coderUsername := none } env ∧
    (∀ ps, env.parseParameters input.workspaceParameters = .ok ps →
      (execute input env).state.githubUserIdLookups = 1 ∧
      (execute input env).state.coderUserQueries = 1) ∧
    zStringMin1Optional (some "") = false := by
  obtain ⟨gh, cu, f3, f4, f5, f6, f7, f8, f9, f10, f11, f12⟩ := input
  simp only at hgh hcu
  subst hgh
  subst hcu
  refine ⟨rfl, ?_, by decide⟩
  intro ps hp
  have hbe : (g == "") = false := by simpa using hg
  simp only [execute, initState, truthy, jsInterp, hbe, hp] at *
  rcases hres : coderUsernameByGitHubId
      ⟨some g, some "", f3, f4, f5, f6, f7, f8, f9, f10, f11, f12⟩
      (env.getCoderUsersByGitHubId (env.getUserIdFromUsername g)) with ⟨w, res⟩
  cases res with
  | error e => simp [hres]
  | ok u =>
    simp [hres]
    split <;> simp

/-- C9 witness: the happy-path configuration with the override set to the
empty string. -/
theorem execute_empty_coder_username_behaves_as_absent_witness :
    execute { happyInput with coderUsername := some "" } happyEnv =
      execute { { happyInput with coderUsername := some "" } with coderUsername := none } happyEnv ∧
    (execute { happyInput with coderUsername := some "" } happyEnv).state.githubUserIdLookups = 1 ∧
    (execute { happyInput with coderUsername := some "" } happyEnv).state.coderUserQueries = 1 ∧
    zStringMin1Optional (some "") = false := by
  have h := execute_empty_coder_username_behaves_as_absent
    { happyInput with coderUsername := some "" } happyEnv "github-user" rfl (by decide) rfl
  exact ⟨h.1, (h.2.1 _ rfl).1, (h.2.1 _ rfl).2, h.2.2⟩

/-- C10.  The GitHub-username assertions of both resolution paths: with the
username undefined, the direct-API resolver (and the legacy parser, in its
zero-row branch) fails with the internal assertion error, which is not a
UserFacingError; with a nonempty username set, neither path can ever produce
that assertion error. -/
theorem github_username_assertions :
    (∀ (input : ActionInput) (users : List String), input.githubUsername = none →
      coderUsernameByGitHubId input users =
        ([], .error (.assertionError "GitHub username is required"))) ∧
    (∀ output : String, (jsSplitNl (jsTrim output)).length < 2 →
      parseCoderUsersListOutput none output =
        ([], .error (.assertionError "GitHub username is required"))) ∧
    (∀ (input : ActionInput) (users : List String) (g : String),
      input.githubUsername = some g → g ≠ "" →
      (coderUsernameByGitHubId input users).2 ≠
        .error (.assertionError "GitHub username is required")) ∧
    (∀ (g : String) (output : String), g ≠ "" →
      (parseCoderUsersListOutput (some g) output).2 ≠
        .error (.assertionError "GitHub username is required")) := by
  refine ⟨?_, ?_, ?_, ?_⟩
  · intro input users hgh
    simp [coderUsernameByGitHubId, truthy, hgh]
  · intro output hlt
    simp [parseCoderUsersListOutput, truthy, hlt]
  · intro input users g hgh hg
    have hbe : (g == "") = false := by simpa using hg
    simp only [coderUsernameByGitHubId, truthy, hgh, hbe]
    split_ifs <;> simp_all
  · intro g output hg
    have hbe : (g == "") = false := by simpa using hg
    simp only [parseCoderUsersListOutput, truthy, hbe]
    split_ifs <;> simp_all

/-- C10 witness: undefined username fires the assertion in both paths;
nonempty username never does. -/
theorem github_username_assertions_witness :
    coderUsernameByGitHubId { happyInput with githubUsername := none } ["hugo"] =
      ([], .error (.assertionError "GitHub username is required")) ∧
    parseCoderUsersListOutput none "USERNAME" =
      ([], .error (.assertionError "GitHub username is required")) ∧
    (coderUsernameByGitHubId happyInput ["hugo"]).2 ≠
      .error (.assertionError "GitHub username is required") ∧
    (parseCoderUsersListOutput (some "github-user") "USERNAME\nhugo").2 ≠
      .error (.assertionError "GitHub username is required") :=
  ⟨github_username_assertions.1 { happyInput with githubUsername := none } ["hugo"] rfl,
   github_username_assertions.2.1 "USERNAME" (by decide),
   github_username_assertions.2.2.1 happyInput ["hugo"] "github-user" rfl (by decide),
   github_username_assertions.2.2.2 "github-user" "USERNAME\nhugo" (by decide)⟩

theorem fsExists_fsRemove (p : String) (fs : FileSystem) :
    fsExists p (fsRemove p fs) = false := by
  induction fs with
  | nil => rfl
  | cons e es ih =>
    cases he : (e.1 == p) with
    | true => simp [fsRemove, fsExists, List.filter_cons, he]
    | false => simp [fsRemove, fsExists, List.filter_cons, he]

/-- C8.  In the CLI provisioning transport the temporary parameters file
written by createParametersFile is gone after the provisioning call on every
exit path: whether the coder create call succeeds or throws, the file no
longer exists on disk afterwards. -/
theorem cli_tmp_parameters_file_removed_on_all_paths
    (parameters : String) (n : Nat) (fs : FileSystem) :
    fsExists (tmpFilePath n) (provisionWorkspaceCLI parameters n true fs).1 = false ∧
    fsExists (tmpFilePath n) (provisionWorkspaceCLI parameters n false fs).1 = false :=
  ⟨fsExists_fsRemove _ _, fsExists_fsRemove _ _⟩

/-! Round-trip lemmas for the parameter codec. -/

theorem newline_not_mem_escChar (c : Char) : '\n' ∉ escChar c := by
  unfold escChar
  split_ifs with h1 h2 h3
  · decide
  · decide
  · decide
  · simp only [List.mem_singleton]
    exact fun hh => h3 hh.symm

theorem newline_not_mem_escList (s : List Char) : '\n' ∉ escList s := by
  induction s with
  | nil => simp [escList]
  | cons c cs ih =>
    simp only [escList, List.mem_append]
    rintro (h | h)
    · exact newline_not_mem_escChar c h
    · exact ih h

theorem newline_not_mem_encodePairLine (p : String × String) :
    '\n' ∉ encodePairLine p := by
  intro h
  simp only [encodePairLine, List.mem_cons, List.mem_append, List.not_mem_nil] at h
  rcases h with h | h | h | h | h | h | h | h | h
  · exact absurd h (by decide)
  · exact newline_not_mem_escList p.1.data h
  · exact absurd h (by decide)
  · exact absurd h (by decide)
  · exact absurd h (by decide)
  · exact absurd h (by decide)
  · exact newline_not_mem_escList p.2.data h
  · exact absurd h (by decide)
  · exact h

theorem scanQuoted_escList (s rest : List Char) :
    scanQuoted (escList s ++ '\"' :: rest) = some (s, rest) := by
  induction s with
  | nil =>
    rw [escList, List.nil_append, scanQuoted.eq_def]
    simp
  | cons c cs ih =>
    by_cases h1 : c = '\"'
    · subst h1
      rw [escList, escChar]
      simp only [if_pos rfl, List.cons_append, List.append_assoc]
      rw [scanQuoted.eq_def]
      simp [unescChar, ih]
    · by_cases h2 : c = '\\'
      · subst h2
        rw [escList, escChar]
        simp only [if_neg (by decide : ¬ ('\\' : Char) = '\"'), if_pos rfl,
          List.cons_append, List.append_assoc]
        rw [scanQuoted.eq_def]
        simp [unescChar, ih]
      · by_cases h3 : c = '\n'
        · subst h3
          rw [escList, escChar]
          simp only [if_neg (by decide : ¬ ('\n' : Char) = '\"'),
            if_neg (by decide : ¬ ('\n' : Char) = '\\'), if_pos rfl,
            List.cons_append, List.append_assoc]
          rw [scanQuoted.eq_def]
          simp [unescChar, ih]
        · rw [escList, escChar]
          simp only [if_neg h1, if_neg h2, if_neg h3, List.cons_append,
            List.nil_append, List.append_assoc]
          rw [scanQuoted.eq_def]
          simp [unescChar, ih, h1, h2, h3]

theorem splitLines_no_newline (l : List Char) (h : '\n' ∉ l) : splitLines l = [l] := by
  induction l with
  | nil => rfl
  | cons c cs ih =>
    have hc : ¬ c = '\n' := fun hh => h (hh ▸ List.mem_cons_self c cs)
    have hcs : '\n' ∉ cs := fun hh => h (List.mem_cons_of_mem c hh)
    simp [splitLines, hc, ih hcs]

theorem splitLines_append (l rest : List Char) (h : '\n' ∉ l) :
    splitLines (l ++ '\n' :: rest) = l :: splitLines rest := by
  induction l with
  | nil => simp [splitLines]
  | cons c cs ih =>
    have hc : ¬ c = '\n' := fun hh => h (hh ▸ List.mem_cons_self c cs)
    have hcs : '\n' ∉ cs := fun hh => h (List.mem_cons_of_mem c hh)
    simp only [List.cons_append, splitLines, if_neg hc, List.append_eq]
    rw [ih hcs]

theorem decodeLine_encodePairLine (p : String × String) :
    decodeLine (encodePairLine p) = some p := by
  simp only [decodeLine, encodePairLine, scanQuoted_escList]

theorem decodeLines_map_encode (ps : List (String × String)) :
    decodeLines (ps.map encodePairLine) = some ps := by
  induction ps with
  | nil => rfl
  | cons p ps ih => simp [decodeLines, decodeLine_encodePairLine, ih]

theorem splitLines_joinLines (ls : List (List Char))
    (h : ∀ l ∈ ls, '\n' ∉ l) (hne : ls ≠ []) :
    splitLines (joinLines ls) = ls := by
  induction ls with
  | nil => cases hne rfl
  | cons l ls ih =>
    cases ls with
    | nil =>
      simp [joinLines, splitLines_no_newline l (h l (List.mem_cons_self l []))]
    | cons l2 ls2 =>
      rw [joinLines, splitLines_append l _ (h l (List.mem_cons_self _ _)),
        ih (fun x hx => h x (List.mem_cons_of_mem _ hx)) (by simp)]

theorem joinLines_encode_head (p : String × String) (rest : List (List Char)) :
    ∃ t, joinLines (encodePairLine p :: rest) = '\"' :: t := by
  cases rest with
  | nil => exact ⟨_, rfl⟩
  | cons r rs =>
    refine ⟨escList p.1.data ++ ('\"' :: ':' :: ' ' :: '\"' :: (escList p.2.data ++ ['\"'])) ++
      '\n' :: joinLines (r :: rs), ?_⟩
    rw [joinLines, encodePairLine]
    simp

theorem encodeParameters_ne_empty_flow (p : String × String) (ps : List (String × String)) :
    encodeParameters (p :: ps) ≠ "\x7b\x7d" := by
  intro hc
  obtain ⟨t, ht⟩ := joinLines_encode_head p (ps.map encodePairLine)
  have hd : (encodeParameters (p :: ps)).data = '\"' :: t := by
    show joinLines ((p :: ps).map encodePairLine) = '\"' :: t
    simpa [List.map] using ht
  rw [hc] at hd
  have h2 := congrArg (fun l => l.headD ' ') hd
  simp at h2

/-- C6.  Round trip of the parameter codec: encoding any flat string-to-string
mapping as structured text and decoding it with the parameter parser
reproduces the mapping exactly — numeric- or boolean-looking values come back
as the same plain strings. -/
theorem parseParameters_roundtrip_model (ps : List (String × String)) :
    parseParametersModel (encodeParameters ps) = some ps := by
  cases ps with
  | nil => rfl
  | cons p ps' =>
    rw [parseParametersModel, if_neg (encodeParameters_ne_empty_flow p ps')]
    have hdata : (encodeParameters (p :: ps')).data =
        joinLines ((p :: ps').map encodePairLine) := rfl
    rw [hdata, splitLines_joinLines _ ?_ ?_]
    · exact decodeLines_map_encode _
    · intro l hl
      rcases List.mem_map.mp hl with ⟨q, hq, rfl⟩
      exact newline_not_mem_encodePairLine q
    · simp
